import Mathlib

/-!
Verification of the firelens task-resource lifecycle engine and the CNI
namespace-cleanup client of the amazon-ecs-agent repository, shallowly
embedded from `agent/taskresource/firelens/firelens_unix.go` and the
`ecscni` client source.
-/

namespace ECSAgent

/-! ## Constants from firelens_unix.go -/

/-- Option key that specifies whether to enable appending ecs metadata. -/
def ecsLogMetadataEnableOption : String := "enable-ecs-log-metadata"

/-- Option key that specifies the type of an external config file. -/
def ExternalConfigTypeOption : String := "config-file-type"

/-- External config stored in S3. -/
def ExternalConfigTypeS3 : String := "s3"

/-- External config stored in a file inside the container. -/
def ExternalConfigTypeFile : String := "file"

/-- Option key that specifies the location of the external config file. -/
def externalConfigValueOption : String := "config-file-value"

/-- Modelled from the spec: the status enumeration (defined in the resource
status source file, which is absent from the inspected sources; the spec fixes
the closed ordered set as None < Created < Removed). Statuses are embedded as
naturals, mirroring the integer-typed Go `ResourceStatus`. -/
def FirelensStatusNone : Nat := 0

/-- Modelled from the spec: the Created status, the successor of None in the
ordered status enumeration. -/
def FirelensCreated : Nat := 1

/-- Modelled from the spec: the Removed (terminal) status. -/
def FirelensRemoved : Nat := 2

/-- Modelled from the spec: config variant constant for the fluentd renderer
(declared in a firelens source file absent from the inspected sources). -/
def FirelensConfigTypeFluentd : String := "fluentd"

/-- Modelled from the spec: config variant constant for the fluent-bit
renderer. -/
def FirelensConfigTypeFluentbit : String := "fluentbit"

/-! ## Option parsing (parseOptions) -/

/-- Embedding of Go `strconv.ParseBool`: accepts exactly the twelve literal
spellings, returning `none` on anything else (the syntax-error case). -/
def strconvParseBool (str : String) : Option Bool :=
  if str = "1" ∨ str = "t" ∨ str = "T" ∨ str = "true" ∨ str = "TRUE" ∨ str = "True" then
    some true
  else if str = "0" ∨ str = "f" ∨ str = "F" ∨ str = "false" ∨ str = "FALSE" ∨ str = "False" then
    some false
  else
    none

/-- A Go `map[string]string` of firelens options, embedded as an association
list (Go maps have unique keys; lookup returns the first binding). -/
def getOpt (options : List (String × String)) (k : String) : Option String :=
  List.lookup k options

/-- The fields of `FirelensResource` that `parseOptions` reads or writes.
On the freshly constructed resource these carry the Go zero values
(`false`, `""`, `""`). -/
structure ParseState where
  ecsMetadataEnabled : Bool
  externalConfigType : String
  externalConfigValue : String
deriving DecidableEq, Repr

/-- First block of `(*FirelensResource).parseOptions` (firelens_unix.go
lines 129-139): the metadata-enrichment option. When the option is present
but unparsable the source only logs a warning and leaves the field untouched
(at its Go zero value `false` on a fresh resource). -/
def parseMetadataOption (firelens : ParseState) (options : List (String × String)) :
    ParseState :=
  match getOpt options ecsLogMetadataEnableOption with
  | some val =>
    match strconvParseBool val with
    | none => firelens
    | some b => { firelens with ecsMetadataEnabled := b }
  | none => { firelens with ecsMetadataEnabled := true }

/-- Second block of `(*FirelensResource).parseOptions` (firelens_unix.go
lines 141-154): the external-config options. -/
def parseExternalConfigOptions (st1 : ParseState) (options : List (String × String)) :
    Except String ParseState :=
  match getOpt options ExternalConfigTypeOption with
  | some externalConfigType =>
    if externalConfigType ≠ ExternalConfigTypeS3 ∧ externalConfigType ≠ ExternalConfigTypeFile then
      Except.error ("invalid value " ++ externalConfigType ++ " is specified for option " ++
        ExternalConfigTypeOption)
    else
      let st2 := { st1 with externalConfigType := externalConfigType }
      match getOpt options externalConfigValueOption with
      | none =>
        Except.error ("option " ++ ExternalConfigTypeOption ++ " is specified but " ++
          externalConfigValueOption ++ " is not specified")
      | some externalConfigValue =>
        Except.ok { st2 with externalConfigValue := externalConfigValue }
  | none => Except.ok st1

/-- Embedding of `(*FirelensResource).parseOptions` (firelens_unix.go
lines 128-155): the metadata block followed by the external-config block.
Field mutations become a returned record; a returned Go error becomes
`Except.error` carrying the formatted message. -/
def parseOptions (firelens : ParseState) (options : List (String × String)) :
    Except String ParseState :=
  parseExternalConfigOptions (parseMetadataOption firelens options) options

/-- The `ParseState` of a freshly constructed `FirelensResource`: every field
at its Go zero value, as in the struct literal of `NewFirelensResource`. -/
def freshParseState : ParseState :=
  { ecsMetadataEnabled := false, externalConfigType := "", externalConfigValue := "" }

/-! ## CNI namespace cleanup (ecscni client source) -/

/-- The fields of the ecscni `Config` that `cleanupNS` reads: the container
id, the namespace path, and the ordered network entries. The entry type is a
parameter; each entry carries its CNI network configuration and interface
name, which the embedding treats opaquely. -/
structure CNIConfig (α : Type) where
  containerID : String
  containerNetNS : String
  networkConfigs : List α
deriving DecidableEq, Repr

/-- The DEL loop body of `cleanupNS`, run over an already reversed entry
list. `del` embeds `libcni.DelNetwork` for the fixed runtime configuration.
Returns the trace of entries for which DEL was invoked, in invocation order,
paired with the overall outcome: the loop stops at the first DelNetwork error
and wraps it with the `delete network failed` context. -/
def delNetworkRun {α : Type} (del : α → Except String Unit) :
    List α → List α × Except String Unit
  | [] => ([], Except.ok ())
  | x :: rest =>
    match del x with
    | Except.error e => ([x], Except.error ("delete network failed: " ++ e))
    | Except.ok _ =>
      let r := delNetworkRun del rest
      (x :: r.1, r.2)

/-- Embedding of `(*cniClient).cleanupNS` (ecscni client source, the loop
`for i := len(cfg.NetworkConfigs) - 1; i >= 0; i--`): DEL is issued for every
network entry in reverse configuration order. -/
def cleanupNS {α : Type} (del : α → Except String Unit) (cfg : CNIConfig α) :
    List α × Except String Unit :=
  delNetworkRun del cfg.networkConfigs.reverse

/-! ## Status tracker state (FirelensResource lock-protected fields) -/

/-- The lock-protected mutable fields of `FirelensResource` that the status
tracker operations read and write. Statuses are the integer-typed
`ResourceStatus` values; `terminalReason` is `none` until the `sync.Once`
guarded first assignment fires. All source operations hold the resource lock,
so the embedding is sequential state passing. -/
structure FirelensState where
  desiredStatus : Nat
  knownStatus : Nat
  appliedStatus : Nat
  terminalReason : Option String
deriving DecidableEq, Repr

/-- A `FirelensState` with every field at its zero value. -/
def freshFirelensState : FirelensState :=
  { desiredStatus := 0, knownStatus := 0, appliedStatus := 0, terminalReason := none }

/-- Embedding of `SetDesiredStatus` (firelens_unix.go lines 263-268). -/
def SetDesiredStatus (st : FirelensState) (status : Nat) : FirelensState :=
  { st with desiredStatus := status }

/-- Embedding of `setTerminalReason` (firelens_unix.go lines 246-251): the
`sync.Once` runs the assignment only on the first call. -/
def setTerminalReason (st : FirelensState) (reason : String) : FirelensState :=
  match st.terminalReason with
  | none => { st with terminalReason := some reason }
  | some _ => st

/-- Embedding of `GetTerminalReason` (firelens_unix.go lines 255-260); an
unset reason reads as the Go zero string. -/
def GetTerminalReason (st : FirelensState) : String :=
  st.terminalReason.getD ""

/-- Embedding of `updateAppliedStatusUnsafe` (firelens_unix.go
lines 288-297). -/
def updateAppliedStatusUnsafe (st : FirelensState) (knownStatus : Nat) : FirelensState :=
  if st.appliedStatus = FirelensStatusNone then st
  else if st.appliedStatus ≤ knownStatus then
    { st with appliedStatus := FirelensStatusNone }
  else st

/-- Embedding of `SetKnownStatus` (firelens_unix.go lines 279-285): assign
the known status, then reconcile the applied status. -/
def SetKnownStatus (st : FirelensState) (status : Nat) : FirelensState :=
  updateAppliedStatusUnsafe { st with knownStatus := status } status

/-- Embedding of `SetAppliedStatus` (firelens_unix.go lines 348-359): the set
succeeds only when no transition is in flight. -/
def SetAppliedStatus (st : FirelensState) (status : Nat) : FirelensState × Bool :=
  if st.appliedStatus ≠ FirelensStatusNone then (st, false)
  else ({ st with appliedStatus := status }, true)

/-! ## Filesystem model and the atomic config writer -/

/-- A flat filesystem: the set of directories created and the files present,
as an association list from path to content. `List.lookup` returns the first
binding, so prepending a binding overwrites a path. -/
structure FS where
  dirs : List String
  files : List (String × String)
deriving DecidableEq, Repr

/-- Content of a path, `none` when absent. -/
def readFile (fs : FS) (path : String) : Option String :=
  List.lookup path fs.files

/-- Create or overwrite a file. -/
def setFile (fs : FS) (path content : String) : FS :=
  { fs with files := (path, content) :: fs.files }

/-- Remove a path (the effect of `os.Rename` on its source name). -/
def removeFile (fs : FS) (path : String) : FS :=
  { fs with files := fs.files.filter (fun kv => kv.1 != path) }

/-- Record a directory as created (the effect of `os.MkdirAll`). -/
def addDir (fs : FS) (d : String) : FS :=
  { fs with dirs := d :: fs.dirs }

/-- Environment-determined outcomes of the five steps of `writeConfigFile`:
temp-file acquisition (carrying the fresh name `ioutil.TempFile` picks),
the content write (carrying the full content `writeFunc` produces), the
permission set, the durability flush, and the rename. `leftoverContent` is
whatever partial content the temp file holds when the content write fails. -/
structure WEnv where
  tempFileResult : Except String String
  writeResult : Except String String
  leftoverContent : String
  chmodResult : Except String Unit
  syncResult : Except String Unit
  renameResult : Except String Unit
deriving Repr

/-- Result of a `writeConfigFile` run: the filesystem afterwards, the
returned error, and whether the deferred `temp.Close()` released the temp
file handle before returning (it runs on every exit path after a successful
acquisition; the temp directory entry itself is only consumed by the
successful rename). -/
structure WriteOutcome where
  fs : FS
  result : Except String Unit
  tempHandleReleased : Bool
deriving Repr

/-- Embedding of `(*FirelensResource).writeConfigFile` (firelens_unix.go
lines 515-544): acquire a temp file, write the content into it, chmod, sync,
then atomically rename it onto `filePath`; any step's failure returns that
error with no further step run, and the deferred close always releases the
handle. -/
def writeConfigFile (env : WEnv) (fs : FS) (filePath : String) : WriteOutcome :=
  match env.tempFileResult with
  | Except.error e => { fs := fs, result := Except.error e, tempHandleReleased := true }
  | Except.ok tempName =>
    let fs1 := setFile fs tempName ""
    match env.writeResult with
    | Except.error e =>
      { fs := setFile fs1 tempName env.leftoverContent, result := Except.error e,
        tempHandleReleased := true }
    | Except.ok content =>
      let fs2 := setFile fs1 tempName content
      match env.chmodResult with
      | Except.error e => { fs := fs2, result := Except.error e, tempHandleReleased := true }
      | Except.ok _ =>
        match env.syncResult with
        | Except.error e => { fs := fs2, result := Except.error e, tempHandleReleased := true }
        | Except.ok _ =>
          match env.renameResult with
          | Except.error e => { fs := fs2, result := Except.error e, tempHandleReleased := true }
          | Except.ok _ =>
            { fs := setFile (removeFile fs2 tempName) filePath content,
              result := Except.ok (), tempHandleReleased := true }

/-- A concrete write environment whose durability flush fails. -/
def exWEnv : WEnv :=
  { tempFileResult := Except.ok "/data/firelens/task/temp_config_file123",
    writeResult := Except.ok "rendered config", leftoverContent := "",
    chmodResult := Except.ok (), syncResult := Except.error "disk full",
    renameResult := Except.ok () }

/-- A concrete filesystem already holding a destination config file. -/
def exFS : FS :=
  { dirs := [], files := [("/data/firelens/task/config/fluent.conf", "old content")] }

/-- A concrete DEL oracle failing exactly on entry 1. -/
def exDel : Nat → Except String Unit :=
  fun n => if n = 1 then Except.error "boom" else Except.ok ()

/-- A concrete CNI configuration with three network entries. -/
def exCNIConfig : CNIConfig Nat :=
  { containerID := "cid", containerNetNS := "ns", networkConfigs := [0, 1, 2] }

/-! ## Resource creation (Create and its stages) -/

/-- The construction-time read-only fields of `FirelensResource` that
`Create` consumes, together with the environment-determined outcomes of its
external calls: directory creation, credentials lookup (whether the
execution-credentials id resolves), S3 ARN parsing, S3 client construction,
the external-config download write, and the primary config generation and
write. -/
structure CreateEnv where
  firelensConfigType : String
  resourceDir : String
  externalConfigType : String
  externalConfigValue : String
  executionCredentialsID : String
  getTaskCredentials : String → Bool
  mkdirResult : String → Except String Unit
  parseS3ARNResult : Except String (String × String)
  s3ClientResult : Except String Unit
  downloadEnv : WEnv
  generateConfigResult : Except String String
  generateEnv : WEnv

/-- Embedding of `createDirectories` (firelens_unix.go lines 442-455): make
the config directory, then the socket directory, failing on the first
`mkdirAll` error with the wrapping context. -/
def createDirectories (env : CreateEnv) (fs : FS) : FS × Except String Unit :=
  match env.mkdirResult (env.resourceDir ++ "/config") with
  | Except.error e => (fs, Except.error ("unable to create config directory: " ++ e))
  | Except.ok _ =>
    let fs1 := addDir fs (env.resourceDir ++ "/config")
    match env.mkdirResult (env.resourceDir ++ "/socket") with
    | Except.error e => (fs1, Except.error ("unable to create socket directory: " ++ e))
    | Except.ok _ => (addDir fs1 (env.resourceDir ++ "/socket"), Except.ok ())

/-- Embedding of `downloadConfigFromS3` (firelens_unix.go lines 483-510):
resolve execution credentials, parse the S3 ARN, build the bucket client,
then stream the object through the atomic writer to config/external.conf;
each stage's failure is wrapped and aborts the rest. -/
def downloadConfigFromS3 (env : CreateEnv) (fs : FS) : FS × Except String Unit :=
  if env.getTaskCredentials env.executionCredentialsID = false then
    (fs, Except.error "unable to get execution role credentials")
  else
    match env.parseS3ARNResult with
    | Except.error e =>
      (fs, Except.error ("unable to parse bucket and key from s3 arn: " ++ e))
    | Except.ok (bucket, key) =>
      match env.s3ClientResult with
      | Except.error e =>
        (fs, Except.error ("unable to initialize s3 client for bucket " ++ bucket ++ ": " ++ e))
      | Except.ok _ =>
        let out := writeConfigFile env.downloadEnv fs (env.resourceDir ++ "/config/external.conf")
        match out.result with
        | Except.error e =>
          (out.fs, Except.error ("unable to download s3 config " ++ key ++ " from bucket " ++
            bucket ++ ": " ++ e))
        | Except.ok _ => (out.fs, Except.ok ())

/-- Embedding of `generateConfigFile` (firelens_unix.go lines 459-479):
generate the config content, then write it through the atomic writer to
config/fluent.conf. -/
def generateConfigFile (env : CreateEnv) (fs : FS) : FS × Except String Unit :=
  match env.generateConfigResult with
  | Except.error e => (fs, Except.error ("unable to generate firelens config: " ++ e))
  | Except.ok _ =>
    let out := writeConfigFile env.generateEnv fs (env.resourceDir ++ "/config/fluent.conf")
    match out.result with
    | Except.error e =>
      (out.fs, Except.error ("unable to generate firelens config file: " ++ e))
    | Except.ok _ => (out.fs, Except.ok ())

/-- The tail of `Create` after the optional S3 stage (firelens_unix.go
lines 420-427): the primary config generation, whose failure is wrapped and
recorded as the terminal reason. -/
def createFinish (env : CreateEnv) (st : FirelensState) (fs : FS) :
    FirelensState × FS × Except String Unit :=
  match generateConfigFile env fs with
  | (fs3, Except.error e) =>
    let e2 := "unable to generate firelens config file: " ++ e
    (setTerminalReason st e2, fs3, Except.error e2)
  | (fs3, Except.ok _) => (st, fs3, Except.ok ())

/-- Embedding of `(*FirelensResource).Create` (firelens_unix.go
lines 395-428): validate the config variant, create the two directories, run
the S3 download when the external-config mode is s3, then generate the
primary config file. Every failure is wrapped with its stage context and
recorded through the one-shot terminal reason; created directories are never
rolled back. `Create` touches no status field of the state. -/
def create (env : CreateEnv) (st : FirelensState) (fs : FS) :
    FirelensState × FS × Except String Unit :=
  if env.firelensConfigType ≠ FirelensConfigTypeFluentd ∧
      env.firelensConfigType ≠ FirelensConfigTypeFluentbit then
    let e := "invalid firelens configuration type: " ++ env.firelensConfigType
    (setTerminalReason st e, fs, Except.error e)
  else
    match createDirectories env fs with
    | (fs1, Except.error e) =>
      let e2 := "unable to initialize resource directory " ++ env.resourceDir ++ ": " ++ e
      (setTerminalReason st e2, fs1, Except.error e2)
    | (fs1, Except.ok _) =>
      if env.externalConfigType = ExternalConfigTypeS3 then
        match downloadConfigFromS3 env fs1 with
        | (fs2, Except.error e) =>
          let e2 := "unable to download firelens s3 config file: " ++ e
          (setTerminalReason st e2, fs2, Except.error e2)
        | (fs2, Except.ok _) => createFinish env st fs2
      else createFinish env st fs1

/-! ## Transition dispatch -/

/-- Modelled from the spec: the string form of a status, produced by the
status type's `String()` in the absent status source file; the exact
spellings do not decide any claim. -/
def statusString (s : Nat) : String :=
  if s = FirelensCreated then "CREATED" else if s = FirelensRemoved then "REMOVED" else "NONE"

/-- Embedding of the transition table built by `initStatusToTransition`
(firelens_unix.go lines 226-231): the only registered target is Created,
bound to `Create`. -/
def statusToTransitions (next : Nat) :
    Option (CreateEnv → FirelensState → FS → FirelensState × FS × Except String Unit) :=
  if next = FirelensCreated then some create else none

/-- Embedding of `ApplyTransition` (firelens_unix.go lines 332-344): look up
the target in the transition table; when absent, record and return the
impossible-transition error; otherwise invoke the bound function. -/
def ApplyTransition (env : CreateEnv) (st : FirelensState) (fs : FS) (nextState : Nat) :
    FirelensState × FS × Except String Unit :=
  match statusToTransitions nextState with
  | none =>
    let e := "resource [firelens]: impossible to transition to " ++ statusString nextState
    (setTerminalReason st e, fs, Except.error e)
  | some f => f env st fs

/-! ## Tracker operation sequences -/

/-- One invocation of a tracker operation on the resource. -/
inductive TrackerOp where
  | setKnown (s : Nat)
  | setDesired (s : Nat)
  | setApplied (s : Nat)
  | applyTransition (next : Nat)
deriving DecidableEq, Repr

/-- Run one tracker operation against the resource state and filesystem. -/
def applyTrackerOp (env : CreateEnv) : TrackerOp → FirelensState × FS → FirelensState × FS
  | TrackerOp.setKnown s, (st, fs) => (SetKnownStatus st s, fs)
  | TrackerOp.setDesired s, (st, fs) => (SetDesiredStatus st s, fs)
  | TrackerOp.setApplied s, (st, fs) => ((SetAppliedStatus st s).1, fs)
  | TrackerOp.applyTransition n, (st, fs) =>
    let r := ApplyTransition env st fs n
    (r.1, r.2.1)

/-- Run a sequence of tracker operations. -/
def applyTrackerOps (env : CreateEnv) (ops : List TrackerOp) (p : FirelensState × FS) :
    FirelensState × FS :=
  ops.foldl (fun q op => applyTrackerOp env op q) p

/-- A sequence of tracker operations is guarded when every `setKnown` call's
argument is at least the known status current at that call. -/
def trackerOpsGuarded (env : CreateEnv) : List TrackerOp → FirelensState × FS → Prop
  | [], _ => True
  | op :: rest, p =>
    (match op with
      | TrackerOp.setKnown s => p.1.knownStatus ≤ s
      | _ => True) ∧
      trackerOpsGuarded env rest (applyTrackerOp env op p)

/-- A concrete creation environment: fluent-bit variant, S3 external config,
credentials that never resolve, directory creation that always succeeds. -/
def exCreateEnv : CreateEnv :=
  { firelensConfigType := "fluentbit", resourceDir := "/data/firelens/task",
    externalConfigType := "s3", externalConfigValue := "arn:aws:s3:::bucket/key",
    executionCredentialsID := "cred-id", getTaskCredentials := fun _ => false,
    mkdirResult := fun _ => Except.ok (), parseS3ARNResult := Except.ok ("bucket", "key"),
    s3ClientResult := Except.ok (), downloadEnv := exWEnv,
    generateConfigResult := Except.ok "rendered config", generateEnv := exWEnv }

/-! ## Helper lemmas -/

theorem lookup_filter_ne (q p : String) (l : List (String × String)) (h : q ≠ p) :
    List.lookup q (l.filter (fun kv => kv.1 != p)) = List.lookup q l := by
  induction l with
  | nil => rfl
  | cons kv rest ih =>
    have hqp : (q == p) = false := beq_eq_false_iff_ne.mpr h
    by_cases hk : kv.1 = p
    · have hq : (q == kv.1) = false := by rw [hk]; exact hqp
      simp [List.filter_cons, hk, List.lookup, hq, hqp, ih]
    · by_cases hqk : q = kv.1
      · simp [List.filter_cons, hk, List.lookup, hqk]
      · simp [List.filter_cons, hk, List.lookup, hqk, ih]

theorem readFile_setFile_same (fs : FS) (p c : String) :
    readFile (setFile fs p c) p = some c := by
  simp [readFile, setFile, List.lookup]

theorem readFile_setFile_ne {p q : String} (h : q ≠ p) (fs : FS) (c : String) :
    readFile (setFile fs p c) q = readFile fs q := by
  have hqp : (q == p) = false := beq_eq_false_iff_ne.mpr h
  simp [readFile, setFile, List.lookup, hqp]

theorem readFile_removeFile_ne {p q : String} (h : q ≠ p) (fs : FS) :
    readFile (removeFile fs p) q = readFile fs q :=
  lookup_filter_ne q p fs.files h

theorem setTerminalReason_knownStatus (st : FirelensState) (r : String) :
    (setTerminalReason st r).knownStatus = st.knownStatus := by
  cases h : st.terminalReason <;> simp [setTerminalReason, h]

theorem setTerminalReason_appliedStatus (st : FirelensState) (r : String) :
    (setTerminalReason st r).appliedStatus = st.appliedStatus := by
  cases h : st.terminalReason <;> simp [setTerminalReason, h]

theorem setTerminalReason_desiredStatus (st : FirelensState) (r : String) :
    (setTerminalReason st r).desiredStatus = st.desiredStatus := by
  cases h : st.terminalReason <;> simp [setTerminalReason, h]

theorem setTerminalReason_reason (st : FirelensState) (r : String) :
    (setTerminalReason st r).terminalReason =
      (if st.terminalReason = none then some r else st.terminalReason) := by
  cases h : st.terminalReason <;> simp [setTerminalReason, h]

theorem SetKnownStatus_knownStatus (st : FirelensState) (s : Nat) :
    (SetKnownStatus st s).knownStatus = s := by
  unfold SetKnownStatus updateAppliedStatusUnsafe
  by_cases h0 : st.appliedStatus = FirelensStatusNone
  · simp [h0]
  · by_cases h1 : st.appliedStatus ≤ s <;> simp [h0, h1]

theorem SetAppliedStatus_knownStatus (st : FirelensState) (s : Nat) :
    ((SetAppliedStatus st s).1).knownStatus = st.knownStatus := by
  unfold SetAppliedStatus
  by_cases h : st.appliedStatus ≠ FirelensStatusNone <;> simp [h]

theorem createFinish_statuses (env : CreateEnv) (st : FirelensState) (fs : FS) :
    (createFinish env st fs).1.knownStatus = st.knownStatus
    ∧ (createFinish env st fs).1.appliedStatus = st.appliedStatus
    ∧ (createFinish env st fs).1.desiredStatus = st.desiredStatus := by
  unfold createFinish
  rcases h : generateConfigFile env fs with ⟨fs3, r⟩
  cases r <;> simp [setTerminalReason_knownStatus, setTerminalReason_appliedStatus,
    setTerminalReason_desiredStatus]

theorem create_statuses (env : CreateEnv) (st : FirelensState) (fs : FS) :
    (create env st fs).1.knownStatus = st.knownStatus
    ∧ (create env st fs).1.appliedStatus = st.appliedStatus
    ∧ (create env st fs).1.desiredStatus = st.desiredStatus := by
  unfold create
  by_cases hv : env.firelensConfigType ≠ FirelensConfigTypeFluentd ∧
      env.firelensConfigType ≠ FirelensConfigTypeFluentbit
  · simp [hv, setTerminalReason_knownStatus, setTerminalReason_appliedStatus,
      setTerminalReason_desiredStatus]
  · rw [if_neg hv]
    rcases hd : createDirectories env fs with ⟨fs1, r1⟩
    cases r1 with
    | error e =>
      simp [setTerminalReason_knownStatus, setTerminalReason_appliedStatus,
        setTerminalReason_desiredStatus]
    | ok u =>
      dsimp only
      by_cases hs3 : env.externalConfigType = ExternalConfigTypeS3
      · rw [if_pos hs3]
        rcases hdl : downloadConfigFromS3 env fs1 with ⟨fs2, r2⟩
        cases r2 with
        | error e =>
          simp [setTerminalReason_knownStatus, setTerminalReason_appliedStatus,
            setTerminalReason_desiredStatus]
        | ok u2 => exact createFinish_statuses env st fs2
      · rw [if_neg hs3]
        exact createFinish_statuses env st fs1

theorem applyTrackerOp_knownStatus (env : CreateEnv) (op : TrackerOp)
    (p : FirelensState × FS) :
    (applyTrackerOp env op p).1.knownStatus =
      match op with
      | TrackerOp.setKnown s => s
      | _ => p.1.knownStatus := by
  rcases p with ⟨st, fs⟩
  cases op with
  | setKnown s => exact SetKnownStatus_knownStatus st s
  | setDesired s => rfl
  | setApplied s => exact SetAppliedStatus_knownStatus st s
  | applyTransition n =>
    show (ApplyTransition env st fs n).1.knownStatus = st.knownStatus
    unfold ApplyTransition statusToTransitions
    by_cases hn : n = FirelensCreated
    · simp only [hn, if_pos rfl]
      exact (create_statuses env st fs).1
    · simp only [if_neg hn]
      exact setTerminalReason_knownStatus st _

theorem delNetworkRun_all_ok {α : Type} (del : α → Except String Unit) (l : List α)
    (h : ∀ x ∈ l, del x = Except.ok ()) :
    delNetworkRun del l = (l, Except.ok ()) := by
  induction l with
  | nil => rfl
  | cons x rest ih =>
    have hx : del x = Except.ok () := h x (by simp)
    simp [delNetworkRun, hx, ih (fun y hy => h y (by simp [hy]))]

theorem delNetworkRun_first_error {α : Type} (del : α → Except String Unit)
    (pre : List α) (x : α) (post : List α) (e : String)
    (hpre : ∀ y ∈ pre, del y = Except.ok ()) (hx : del x = Except.error e) :
    delNetworkRun del (pre ++ x :: post) =
      (pre ++ [x], Except.error ("delete network failed: " ++ e)) := by
  induction pre with
  | nil => simp [delNetworkRun, hx]
  | cons y rest ih =>
    have hy : del y = Except.ok () := hpre y (by simp)
    simp [delNetworkRun, hy, ih (fun z hz => hpre z (by simp [hz]))]

theorem parseMetadataOption_flag (st : ParseState) (opts : List (String × String)) :
    (parseMetadataOption st opts).ecsMetadataEnabled =
      match getOpt opts ecsLogMetadataEnableOption with
      | none => true
      | some v =>
        match strconvParseBool v with
        | none => st.ecsMetadataEnabled
        | some b => b := by
  unfold parseMetadataOption
  cases hm : getOpt opts ecsLogMetadataEnableOption with
  | none => rfl
  | some v => cases hb : strconvParseBool v <;> simp [hb]

theorem parseExternalConfig_absent (st1 : ParseState) (opts : List (String × String))
    (hm : getOpt opts ExternalConfigTypeOption = none) :
    parseExternalConfigOptions st1 opts = Except.ok st1 := by
  simp [parseExternalConfigOptions, hm]

theorem parseExternalConfig_badtype (st1 : ParseState) (opts : List (String × String))
    (t : String) (hm : getOpt opts ExternalConfigTypeOption = some t)
    (h1 : t ≠ ExternalConfigTypeS3) (h2 : t ≠ ExternalConfigTypeFile) :
    parseExternalConfigOptions st1 opts =
      Except.error ("invalid value " ++ t ++ " is specified for option " ++
        ExternalConfigTypeOption) := by
  simp [parseExternalConfigOptions, hm, h1, h2]

theorem parseExternalConfig_noval (st1 : ParseState) (opts : List (String × String))
    (t : String) (hm : getOpt opts ExternalConfigTypeOption = some t)
    (ht : t = ExternalConfigTypeS3 ∨ t = ExternalConfigTypeFile)
    (hv : getOpt opts externalConfigValueOption = none) :
    parseExternalConfigOptions st1 opts =
      Except.error ("option " ++ ExternalConfigTypeOption ++ " is specified but " ++
        externalConfigValueOption ++ " is not specified") := by
  rcases ht with h | h <;> subst h <;> simp [parseExternalConfigOptions, hm, hv,
    ExternalConfigTypeS3, ExternalConfigTypeFile]

theorem parseExternalConfig_stores (st1 : ParseState) (opts : List (String × String))
    (t v : String) (hm : getOpt opts ExternalConfigTypeOption = some t)
    (ht : t = ExternalConfigTypeS3 ∨ t = ExternalConfigTypeFile)
    (hv : getOpt opts externalConfigValueOption = some v) :
    parseExternalConfigOptions st1 opts =
      Except.ok { st1 with externalConfigType := t, externalConfigValue := v } := by
  rcases ht with h | h <;> subst h <;> simp [parseExternalConfigOptions, hm, hv,
    ExternalConfigTypeS3, ExternalConfigTypeFile]

theorem parseExternalConfig_ok_meta (st1 res : ParseState) (opts : List (String × String))
    (h : parseExternalConfigOptions st1 opts = Except.ok res) :
    res.ecsMetadataEnabled = st1.ecsMetadataEnabled := by
  cases hm : getOpt opts ExternalConfigTypeOption with
  | none =>
    rw [parseExternalConfig_absent st1 opts hm] at h
    injection h with h2
    subst h2
    rfl
  | some t =>
    by_cases h1 : t = ExternalConfigTypeS3 ∨ t = ExternalConfigTypeFile
    · cases hv : getOpt opts externalConfigValueOption with
      | none =>
        rw [parseExternalConfig_noval st1 opts t hm h1 hv] at h
        exact Except.noConfusion h
      | some v =>
        rw [parseExternalConfig_stores st1 opts t v hm h1 hv] at h
        injection h with h2
        subst h2
        rfl
    · push_neg at h1
      rw [parseExternalConfig_badtype st1 opts t hm h1.1 h1.2] at h
      exact Except.noConfusion h

/-! ## Claim theorems: option parsing -/

/-- C1 counterexample: with the metadata option present but not parsable as a
boolean, `parseOptions` on a freshly constructed resource succeeds with the
metadata-enrichment flag equal to `false` (the untouched Go zero value), not
`true` as the claim states. -/
theorem parseOptions_malformed_metadata_counterexample :
    (parseOptions freshParseState [(ecsLogMetadataEnableOption, "garbage")]).map
        (fun s => s.ecsMetadataEnabled) = Except.ok false := by
  rfl

/-- C1 (amended): whenever `parseOptions` succeeds, the metadata-enrichment
flag is `true` when the enable-ecs-log-metadata option is absent; when the
option is present but does not parse as a boolean the field is left unchanged
(hence `false` on a freshly constructed resource, whose zero value it keeps,
with only a warning logged); when the option parses as a boolean the flag
equals the parsed value. -/
theorem parseOptions_metadata_flag (st res : ParseState) (opts : List (String × String))
    (h : parseOptions st opts = Except.ok res) :
    res.ecsMetadataEnabled =
      match getOpt opts ecsLogMetadataEnableOption with
      | none => true
      | some v =>
        match strconvParseBool v with
        | none => st.ecsMetadataEnabled
        | some b => b := by
  unfold parseOptions at h
  rw [parseExternalConfig_ok_meta (parseMetadataOption st opts) res opts h]
  exact parseMetadataOption_flag st opts

/-- C1 witness: concrete instantiation of the amended claim, on the options
map carrying a well formed boolean value. -/
theorem parseOptions_metadata_flag_witness :
    (ParseState.mk true "" "").ecsMetadataEnabled =
      match getOpt [(ecsLogMetadataEnableOption, "true")] ecsLogMetadataEnableOption with
      | none => true
      | some v =>
        match strconvParseBool v with
        | none => freshParseState.ecsMetadataEnabled
        | some b => b :=
  parseOptions_metadata_flag freshParseState (ParseState.mk true "" "")
    [(ecsLogMetadataEnableOption, "true")] (by rfl)

/-- C2: `parseOptions` fails with the configuration-error message exactly when
the config-file-type option is present with a value other than s3 or file, or
present with a recognized value but no config-file-value option; otherwise it
succeeds, and when the mode option is present it stores both the mode and the
locator. The source performs no filesystem operation anywhere in
`parseOptions`, which the embedding mirrors by carrying no filesystem state. -/
theorem parseOptions_external_config_spec (st : ParseState) (opts : List (String × String)) :
    ((∃ res, parseOptions st opts = Except.ok res) ↔
        ∀ t, getOpt opts ExternalConfigTypeOption = some t →
          (t = ExternalConfigTypeS3 ∨ t = ExternalConfigTypeFile) ∧
            (getOpt opts externalConfigValueOption).isSome = true)
    ∧ (∀ t, getOpt opts ExternalConfigTypeOption = some t →
        t ≠ ExternalConfigTypeS3 → t ≠ ExternalConfigTypeFile →
        parseOptions st opts = Except.error ("invalid value " ++ t ++
          " is specified for option " ++ ExternalConfigTypeOption))
    ∧ (∀ t, getOpt opts ExternalConfigTypeOption = some t →
        (t = ExternalConfigTypeS3 ∨ t = ExternalConfigTypeFile) →
        getOpt opts externalConfigValueOption = none →
        parseOptions st opts = Except.error ("option " ++ ExternalConfigTypeOption ++
          " is specified but " ++ externalConfigValueOption ++ " is not specified"))
    ∧ (∀ t v res, getOpt opts ExternalConfigTypeOption = some t →
        getOpt opts externalConfigValueOption = some v →
        parseOptions st opts = Except.ok res →
        res.externalConfigType = t ∧ res.externalConfigValue = v) := by
  unfold parseOptions
  refine ⟨⟨?_, ?_⟩, ?_, ?_, ?_⟩
  · rintro ⟨res, h⟩ t hm
    by_cases h1 : t = ExternalConfigTypeS3 ∨ t = ExternalConfigTypeFile
    · refine ⟨h1, ?_⟩
      cases hv : getOpt opts externalConfigValueOption with
      | none =>
        rw [parseExternalConfig_noval _ opts t hm h1 hv] at h
        exact Except.noConfusion h
      | some v => rfl
    · push_neg at h1
      rw [parseExternalConfig_badtype _ opts t hm h1.1 h1.2] at h
      exact Except.noConfusion h
  · intro hcond
    cases hm : getOpt opts ExternalConfigTypeOption with
    | none => exact ⟨_, parseExternalConfig_absent _ opts hm⟩
    | some t =>
      obtain ⟨ht, hv⟩ := hcond t hm
      cases hv2 : getOpt opts externalConfigValueOption with
      | none => rw [hv2] at hv; exact Bool.noConfusion hv
      | some v => exact ⟨_, parseExternalConfig_stores _ opts t v hm ht hv2⟩
  · intro t hm h1 h2
    exact parseExternalConfig_badtype _ opts t hm h1 h2
  · intro t hm ht hv
    exact parseExternalConfig_noval _ opts t hm ht hv
  · intro t v res hm hv h
    by_cases h1 : t = ExternalConfigTypeS3 ∨ t = ExternalConfigTypeFile
    · rw [parseExternalConfig_stores _ opts t v hm h1 hv] at h
      injection h with h2
      subst h2
      exact ⟨rfl, rfl⟩
    · push_neg at h1
      rw [parseExternalConfig_badtype _ opts t hm h1.1 h1.2] at h
      exact Except.noConfusion h

/-- C2 witness: with `config-file-type=s3` and no `config-file-value`,
`parseOptions` fails with the pairing configuration error. -/
theorem parseOptions_external_config_spec_witness :
    parseOptions freshParseState [(ExternalConfigTypeOption, "s3")] =
      Except.error ("option " ++ ExternalConfigTypeOption ++ " is specified but " ++
        externalConfigValueOption ++ " is not specified") :=
  (parseOptions_external_config_spec freshParseState
      [(ExternalConfigTypeOption, "s3")]).2.2.1 "s3" (by rfl) (Or.inl rfl) (by rfl)

/-! ## Claim theorems: CNI cleanup -/

/-- C3: `cleanupNS` issues DEL invocations in exactly the reverse of the
configured order (entry N-1 first, entry 0 last); if every DEL succeeds it
returns success after issuing all N, and if some DEL fails it returns that
failure immediately (wrapped with the delete-network-failed context) and
issues no DEL for any earlier-configured entry. -/
theorem cleanupNS_reverse_teardown {α : Type} (del : α → Except String Unit)
    (cfg : CNIConfig α) :
    ((∀ x ∈ cfg.networkConfigs, del x = Except.ok ()) →
        cleanupNS del cfg = (cfg.networkConfigs.reverse, Except.ok ()))
    ∧ (∀ pre x post e, cfg.networkConfigs.reverse = pre ++ x :: post →
        (∀ y ∈ pre, del y = Except.ok ()) → del x = Except.error e →
        cleanupNS del cfg = (pre ++ [x], Except.error ("delete network failed: " ++ e))) := by
  constructor
  · intro h
    exact delNetworkRun_all_ok del _ (fun x hx => h x (List.mem_reverse.mp hx))
  · intro pre x post e hrev hpre hx
    unfold cleanupNS
    rw [hrev]
    exact delNetworkRun_first_error del pre x post e hpre hx

/-- C3 witness: with three configured networks where DEL fails on the
middle-configured entry, cleanup issues DEL for entries 2 then 1 only and
returns the wrapped failure, never touching entry 0. -/
theorem cleanupNS_reverse_teardown_witness :
    cleanupNS exDel exCNIConfig = ([2, 1], Except.error ("delete network failed: " ++ "boom")) :=
  (cleanupNS_reverse_teardown exDel exCNIConfig).2 [2] 1 [0] "boom" (by rfl)
    (by intro y hy; simp at hy; subst hy; rfl) (by rfl)

/-! ## Claim theorems: status tracker -/

/-- C4: `SetAppliedStatus s` sets the applied status to `s` and returns true
when the current applied status is None, and otherwise returns false leaving
the whole state (every field) unchanged. -/
theorem setAppliedStatus_spec (st : FirelensState) (s : Nat) :
    (st.appliedStatus = FirelensStatusNone →
        SetAppliedStatus st s = ({ st with appliedStatus := s }, true))
    ∧ (st.appliedStatus ≠ FirelensStatusNone → SetAppliedStatus st s = (st, false)) := by
  constructor <;> intro h <;> simp [SetAppliedStatus, h]

/-- C4 witness: on a fresh state the set succeeds; the returned state carries
the new applied status. -/
theorem setAppliedStatus_spec_witness :
    SetAppliedStatus freshFirelensState FirelensCreated =
      ({ freshFirelensState with appliedStatus := FirelensCreated }, true) :=
  (setAppliedStatus_spec freshFirelensState FirelensCreated).1 rfl

/-- C5: `SetKnownStatus s` sets the known status to `s`, resets the applied
status to None exactly when the prior applied status was not None and was at
most `s`, and otherwise leaves the applied status (and the remaining fields)
unchanged. -/
theorem setKnownStatus_spec (st : FirelensState) (s : Nat) :
    (SetKnownStatus st s).knownStatus = s
    ∧ (SetKnownStatus st s).appliedStatus =
        (if st.appliedStatus ≠ FirelensStatusNone ∧ st.appliedStatus ≤ s
          then FirelensStatusNone else st.appliedStatus)
    ∧ (SetKnownStatus st s).desiredStatus = st.desiredStatus
    ∧ (SetKnownStatus st s).terminalReason = st.terminalReason := by
  unfold SetKnownStatus updateAppliedStatusUnsafe
  by_cases h0 : st.appliedStatus = FirelensStatusNone
  · simp [h0]
  · by_cases h1 : st.appliedStatus ≤ s <;> simp [h0, h1]

/-- C7: the terminal reason is written at most once: after a first call with
reason `r` on a state with no recorded reason, any sequence of further calls
leaves the stored reason at `r`, and `GetTerminalReason` returns `r`. -/
theorem terminalReason_first_wins (st : FirelensState) (r : String) (rs : List String)
    (h : st.terminalReason = none) :
    GetTerminalReason (rs.foldl setTerminalReason (setTerminalReason st r)) = r
    ∧ (rs.foldl setTerminalReason (setTerminalReason st r)).terminalReason = some r := by
  have hfix : ∀ l : List String, ∀ s1 : FirelensState, s1.terminalReason = some r →
      (l.foldl setTerminalReason s1).terminalReason = some r := by
    intro l
    induction l with
    | nil => intro s1 h1; exact h1
    | cons x rest ih =>
      intro s1 h1
      have hkeep : setTerminalReason s1 x = s1 := by simp [setTerminalReason, h1]
      rw [List.foldl_cons, hkeep]
      exact ih s1 h1
  have h1 : (setTerminalReason st r).terminalReason = some r := by
    simp [setTerminalReason, h]
  have h2 := hfix rs _ h1
  exact ⟨by simp [GetTerminalReason, h2], h2⟩

/-- C7 witness: a first reason survives two later overwrite attempts. -/
theorem terminalReason_first_wins_witness :
    GetTerminalReason (["second", "third"].foldl setTerminalReason
        (setTerminalReason freshFirelensState "first")) = "first"
    ∧ (["second", "third"].foldl setTerminalReason
        (setTerminalReason freshFirelensState "first")).terminalReason = some "first" :=
  terminalReason_first_wins freshFirelensState "first" ["second", "third"] rfl

/-! ## Claim theorems: atomic config writer -/

/-- C8: provided the temp file gets a fresh name distinct from the
destination, any step failure in `writeConfigFile` leaves the destination
path with its prior content and the temp handle released (the deferred close
runs on every exit path); the destination's content changes only to the
complete written content, via the final atomic rename, on success. -/
theorem writeConfigFile_atomic (env : WEnv) (fs : FS) (filePath : String)
    (hname : ∀ n, env.tempFileResult = Except.ok n → n ≠ filePath) :
    (writeConfigFile env fs filePath).tempHandleReleased = true
    ∧ (∀ e, (writeConfigFile env fs filePath).result = Except.error e →
        readFile (writeConfigFile env fs filePath).fs filePath = readFile fs filePath)
    ∧ (∀ c, readFile (writeConfigFile env fs filePath).fs filePath = some c →
        readFile fs filePath = some c ∨
          ((writeConfigFile env fs filePath).result = Except.ok ()
            ∧ env.writeResult = Except.ok c)) := by
  cases ht : env.tempFileResult with
  | error e0 =>
    simp only [writeConfigFile, ht]
    exact ⟨trivial, fun e he => trivial, fun c hc => Or.inl hc⟩
  | ok tempName =>
    have hne : filePath ≠ tempName := Ne.symm (hname tempName ht)
    cases hw : env.writeResult with
    | error e1 =>
      simp only [writeConfigFile, ht, hw]
      refine ⟨trivial, fun e he => ?_, fun c hc => ?_⟩
      · rw [readFile_setFile_ne hne, readFile_setFile_ne hne]
      · rw [readFile_setFile_ne hne, readFile_setFile_ne hne] at hc
        exact Or.inl hc
    | ok content =>
      cases hc : env.chmodResult with
      | error e2 =>
        simp only [writeConfigFile, ht, hw, hc]
        refine ⟨trivial, fun e he => ?_, fun c hcc => ?_⟩
        · rw [readFile_setFile_ne hne, readFile_setFile_ne hne]
        · rw [readFile_setFile_ne hne, readFile_setFile_ne hne] at hcc
          exact Or.inl hcc
      | ok u2 =>
        cases hs : env.syncResult with
        | error e3 =>
          simp only [writeConfigFile, ht, hw, hc, hs]
          refine ⟨trivial, fun e he => ?_, fun c hcc => ?_⟩
          · rw [readFile_setFile_ne hne, readFile_setFile_ne hne]
          · rw [readFile_setFile_ne hne, readFile_setFile_ne hne] at hcc
            exact Or.inl hcc
        | ok u3 =>
          cases hr : env.renameResult with
          | error e4 =>
            simp only [writeConfigFile, ht, hw, hc, hs, hr]
            refine ⟨trivial, fun e he => ?_, fun c hcc => ?_⟩
            · rw [readFile_setFile_ne hne, readFile_setFile_ne hne]
            · rw [readFile_setFile_ne hne, readFile_setFile_ne hne] at hcc
              exact Or.inl hcc
          | ok u4 =>
            simp only [writeConfigFile, ht, hw, hc, hs, hr]
            refine ⟨trivial, fun e he => Except.noConfusion he, fun c hcc => ?_⟩
            rw [readFile_setFile_same] at hcc
            injection hcc with h5
            subst h5
            exact Or.inr ⟨trivial, rfl⟩

/-- C8 witness: a failing durability flush returns the error, the destination
keeps its prior content, and the temp handle is released. -/
theorem writeConfigFile_atomic_witness :
    (writeConfigFile exWEnv exFS "/data/firelens/task/config/fluent.conf").tempHandleReleased
        = true
    ∧ readFile (writeConfigFile exWEnv exFS "/data/firelens/task/config/fluent.conf").fs
          "/data/firelens/task/config/fluent.conf"
        = readFile exFS "/data/firelens/task/config/fluent.conf" := by
  have h := writeConfigFile_atomic exWEnv exFS "/data/firelens/task/config/fluent.conf"
    (by intro n hn; injection hn with h2; subst h2; decide)
  exact ⟨h.1, h.2.1 "disk full" (by rfl)⟩

/-! ## Claim theorems: transition dispatch and lifecycle -/

/-- C6: for a target status absent from the transition table (any status
other than Created), `ApplyTransition` returns the state-transition error,
records it as the terminal reason when none was recorded before, and leaves
the known and applied statuses unchanged; for the one registered target it
returns the result of the bound `Create`. -/
theorem applyTransition_spec (env : CreateEnv) (st : FirelensState) (fs : FS) (next : Nat) :
    (next ≠ FirelensCreated →
        ApplyTransition env st fs next =
          (setTerminalReason st
              ("resource [firelens]: impossible to transition to " ++ statusString next),
            fs,
            Except.error
              ("resource [firelens]: impossible to transition to " ++ statusString next))
        ∧ (ApplyTransition env st fs next).1.knownStatus = st.knownStatus
        ∧ (ApplyTransition env st fs next).1.appliedStatus = st.appliedStatus
        ∧ (ApplyTransition env st fs next).1.terminalReason =
            (if st.terminalReason = none
              then some
                ("resource [firelens]: impossible to transition to " ++ statusString next)
              else st.terminalReason))
    ∧ (next = FirelensCreated → ApplyTransition env st fs next = create env st fs) := by
  constructor
  · intro hn
    have hA : ApplyTransition env st fs next =
        (setTerminalReason st
            ("resource [firelens]: impossible to transition to " ++ statusString next),
          fs,
          Except.error
            ("resource [firelens]: impossible to transition to " ++ statusString next)) := by
      unfold ApplyTransition statusToTransitions
      rw [if_neg hn]
    refine ⟨hA, ?_, ?_, ?_⟩ <;> rw [hA]
    · exact setTerminalReason_knownStatus st _
    · exact setTerminalReason_appliedStatus st _
    · exact setTerminalReason_reason st _
  · intro hn
    unfold ApplyTransition statusToTransitions
    rw [if_pos hn]

/-- C6 witness: transitioning to Removed (absent from the table) fails with
the impossible-transition error and records it. -/
theorem applyTransition_spec_witness :
    ApplyTransition exCreateEnv freshFirelensState exFS FirelensRemoved =
      (setTerminalReason freshFirelensState
          ("resource [firelens]: impossible to transition to " ++ statusString FirelensRemoved),
        exFS,
        Except.error
          ("resource [firelens]: impossible to transition to " ++ statusString FirelensRemoved)) :=
  ((applyTransition_spec exCreateEnv freshFirelensState exFS FirelensRemoved).1 (by decide)).1

/-- C9 counterexample: `SetKnownStatus` is unguarded, so the tracker
operation `setKnown None` on a state whose known status is Created moves the
known status strictly lower, contradicting the claim that no operation ever
does so. -/
theorem knownStatus_decrease_counterexample :
    (applyTrackerOp exCreateEnv (TrackerOp.setKnown FirelensStatusNone)
          ({ freshFirelensState with knownStatus := FirelensCreated }, exFS)).1.knownStatus
      < ({ freshFirelensState with knownStatus := FirelensCreated } : FirelensState).knownStatus := by
  decide

/-- C9 (amended): among the tracker operations only `SetKnownStatus` changes
the known status, setting it to exactly its argument with no guard; hence the
known status is monotonically non-decreasing along every operation sequence
in which each `SetKnownStatus` argument is at least the known status current
at that call. -/
theorem knownStatus_monotone_guarded (env : CreateEnv) (ops : List TrackerOp)
    (p : FirelensState × FS) (h : trackerOpsGuarded env ops p) :
    p.1.knownStatus ≤ (applyTrackerOps env ops p).1.knownStatus := by
  induction ops generalizing p with
  | nil => exact le_refl _
  | cons op rest ih =>
    obtain ⟨hop, hrest⟩ := h
    have hstep : p.1.knownStatus ≤ (applyTrackerOp env op p).1.knownStatus := by
      rw [applyTrackerOp_knownStatus]
      cases op with
      | setKnown s => exact hop
      | setDesired s => exact le_refl _
      | setApplied s => exact le_refl _
      | applyTransition n => exact le_refl _
    have htail := ih (applyTrackerOp env op p) hrest
    have hfold : applyTrackerOps env (op :: rest) p =
        applyTrackerOps env rest (applyTrackerOp env op p) := rfl
    rw [hfold]
    exact le_trans hstep htail

/-- C9 witness: a guarded four-operation sequence never lowers the known
status. -/
theorem knownStatus_monotone_guarded_witness :
    (freshFirelensState, exFS).1.knownStatus ≤
      (applyTrackerOps exCreateEnv
          [TrackerOp.setDesired 2, TrackerOp.setKnown 1, TrackerOp.setApplied 2,
            TrackerOp.setKnown 2]
          (freshFirelensState, exFS)).1.knownStatus :=
  knownStatus_monotone_guarded exCreateEnv
    [TrackerOp.setDesired 2, TrackerOp.setKnown 1, TrackerOp.setApplied 2, TrackerOp.setKnown 2]
    (freshFirelensState, exFS)
    ⟨trivial, by decide, trivial, by decide, trivial⟩

/-- C10: with a valid config variant, external-config mode s3, successful
directory creation, and a credentials lookup that fails to resolve the
execution-credentials id, `Create` fails with the wrapped credential error,
the config/ and socket/ directories exist in the final filesystem (not rolled
back), no file is touched (in particular config/fluent.conf is never
written), and the error is recorded as the one-shot terminal reason. -/
theorem create_s3_credential_failure (env : CreateEnv) (st : FirelensState) (fs : FS)
    (hvariant : env.firelensConfigType = FirelensConfigTypeFluentd ∨
      env.firelensConfigType = FirelensConfigTypeFluentbit)
    (hs3 : env.externalConfigType = ExternalConfigTypeS3)
    (hcred : env.getTaskCredentials env.executionCredentialsID = false)
    (hmk1 : env.mkdirResult (env.resourceDir ++ "/config") = Except.ok ())
    (hmk2 : env.mkdirResult (env.resourceDir ++ "/socket") = Except.ok ()) :
    (create env st fs).2.2 =
        Except.error ("unable to download firelens s3 config file: " ++
          "unable to get execution role credentials")
    ∧ (env.resourceDir ++ "/config") ∈ (create env st fs).2.1.dirs
    ∧ (env.resourceDir ++ "/socket") ∈ (create env st fs).2.1.dirs
    ∧ (create env st fs).2.1.files = fs.files
    ∧ (create env st fs).1.terminalReason =
        (if st.terminalReason = none
          then some ("unable to download firelens s3 config file: " ++
            "unable to get execution role credentials")
          else st.terminalReason) := by
  have hv : ¬(env.firelensConfigType ≠ FirelensConfigTypeFluentd ∧
      env.firelensConfigType ≠ FirelensConfigTypeFluentbit) := by
    rcases hvariant with h | h <;> simp [h]
  have hdirs : createDirectories env fs =
      (addDir (addDir fs (env.resourceDir ++ "/config")) (env.resourceDir ++ "/socket"),
        Except.ok ()) := by
    unfold createDirectories
    rw [hmk1, hmk2]
  have hdl : downloadConfigFromS3 env
      (addDir (addDir fs (env.resourceDir ++ "/config")) (env.resourceDir ++ "/socket")) =
      (addDir (addDir fs (env.resourceDir ++ "/config")) (env.resourceDir ++ "/socket"),
        Except.error "unable to get execution role credentials") := by
    simp [downloadConfigFromS3, hcred]
  have hC : create env st fs =
      (setTerminalReason st ("unable to download firelens s3 config file: " ++
          "unable to get execution role credentials"),
        addDir (addDir fs (env.resourceDir ++ "/config")) (env.resourceDir ++ "/socket"),
        Except.error ("unable to download firelens s3 config file: " ++
          "unable to get execution role credentials")) := by
    unfold create
    rw [if_neg hv, hdirs]
    dsimp only
    rw [if_pos hs3, hdl]
  rw [hC]
  refine ⟨rfl, ?_, ?_, rfl, setTerminalReason_reason st _⟩
  · simp [addDir]
  · simp [addDir]

/-- C10 witness: on the concrete environment with unresolvable credentials,
`Create` fails with the credential error, both directories exist, no file is
written, and the terminal reason is recorded. -/
theorem create_s3_credential_failure_witness :
    (create exCreateEnv freshFirelensState (FS.mk [] [])).2.2 =
        Except.error ("unable to download firelens s3 config file: " ++
          "unable to get execution role credentials")
    ∧ (exCreateEnv.resourceDir ++ "/config") ∈
        (create exCreateEnv freshFirelensState (FS.mk [] [])).2.1.dirs
    ∧ (exCreateEnv.resourceDir ++ "/socket") ∈
        (create exCreateEnv freshFirelensState (FS.mk [] [])).2.1.dirs
    ∧ (create exCreateEnv freshFirelensState (FS.mk [] [])).2.1.files = (FS.mk [] []).files
    ∧ (create exCreateEnv freshFirelensState (FS.mk [] [])).1.terminalReason =
        (if freshFirelensState.terminalReason = none
          then some ("unable to download firelens s3 config file: " ++
            "unable to get execution role credentials")
          else freshFirelensState.terminalReason) :=
  create_s3_credential_failure exCreateEnv freshFirelensState (FS.mk [] [])
    (Or.inr rfl) rfl rfl rfl rfl

end ECSAgent
